import Mathlib

/-!
Verification of the stateless authentication and role-based authorization core
of the CAB432-A2 media-processor service.

The JavaScript source is embedded shallowly:

* JWT payloads become association lists of string keys and JSON-like values
  (`JValue`); JavaScript truthiness is made explicit (`JValue.truthy`).
* `jwt.sign` / `jwt.decode` are modelled symbolically: a signed token records
  the payload, the signing key, and the payload the signature was computed
  over.  `jwt.decode` returns the payload without any check, exactly as the
  library does.
* Stateful operations (the local group-membership map of
  `services/cognitoGroups.js`, the Cognito directory's group relation and MFA
  flags) become explicit state passing over association lists.
* The external Cognito provider is out of the repository; where a claim needs
  its behaviour it is modelled from the spec's collaborator contract and is
  marked as such in the doc comment.
-/

namespace MediaAuth

/-- JSON-like values carried as JWT claims and request fields. -/
inductive JValue where
  | str (s : String)
  | num (n : Nat)
  | arr (xs : List String)
deriving DecidableEq, Repr

/-- JavaScript truthiness of a claim value: empty strings and zero are falsy,
arrays are always truthy. -/
def JValue.truthy : JValue → Bool
  | .str s => s ≠ ""
  | .num n => n ≠ 0
  | .arr _ => true

/-- A JWT payload: an object with string keys, modelled as an association
list (key order is the JS object property order). -/
abbrev Payload := List (String × JValue)

/-- Property access `obj[k]` on a JS object: the first binding of `k`,
`none` when the property is absent (JS `undefined`). -/
def getClaim (p : Payload) (k : String) : Option JValue :=
  (p.find? (fun kv => kv.1 == k)).map Prod.snd

/-- JS `a || b` on possibly-absent values: `b` whenever `a` is absent or
falsy. -/
def jsOr (a b : Option JValue) : Option JValue :=
  match a with
  | some v => if v.truthy then some v else b
  | none => b

/-- JS `a || []`: keeps a present truthy value, otherwise the empty array. -/
def jsOrEmptyArr (a : Option JValue) : JValue :=
  match a with
  | some v => if v.truthy then v else .arr []
  | none => .arr []

/-- JS `groups.includes(g)`.  At every call site modelled here the value is an
array (or was defaulted to `[]` by `jsOrEmptyArr`), so only the array case is
given JS semantics. -/
def jincludes (v : JValue) (g : String) : Bool :=
  match v with
  | .arr xs => xs.contains g
  | _ => false

/-- A signed JWT, modelled symbolically: `payload` is what `jwt.decode`
returns, and the signature is represented by the key and the payload it was
computed over.  The signature is valid for key `k` exactly when `sigKey = k`
and `sigPayload = payload`. -/
structure JwtToken where
  payload : Payload
  sigKey : String
  sigPayload : Payload
deriving DecidableEq, Repr

/-- `jwt.sign(payload, key)`. -/
def jwtSign (p : Payload) (key : String) : JwtToken :=
  ⟨p, key, p⟩

/-- A bearer-token string as received from a client: either garbage that is
not a JWT at all, or a structurally valid token. -/
inductive TokenInput where
  | malformed
  | token (t : JwtToken)
deriving DecidableEq, Repr

/-- `jwt.decode(token)`: returns the payload with NO verification of any
kind, `null` for a structurally invalid token. -/
def jwtDecode : TokenInput → Option Payload
  | .malformed => none
  | .token t => some t.payload

/-- Whether the token's signature was produced with `key` over the token's
current payload. -/
def jwtSigOk (t : JwtToken) (key : String) : Bool :=
  t.sigKey == key && decide (t.sigPayload = t.payload)

/-- Result of `cognitoService.verifyToken`: the `user` object of the success
case (`userId`, `username`, `email` may be JS `undefined`), or the thrown
message reported as `{success:false, error}`. -/
inductive VerifyResult where
  | ok (userId username email : Option JValue) (groups : JValue)
  | err (msg : String)
deriving DecidableEq, Repr

/-- Whether a `verifyToken` outcome is the success case. -/
def VerifyResult.isOk : VerifyResult → Bool
  | .ok _ _ _ _ => true
  | .err _ => false

/-- `cognitoService.verifyToken(token)` from the cognito service
(part_007 lines 284-316), at wall-clock second `now`
(`Math.floor(Date.now() / 1000)`).  It decodes with `jwt.decode` (no
signature verification), errors when decoding fails, errors when
`decoded.exp && decoded.exp < now`, and otherwise returns the user object
built from the decoded claims.  A non-numeric `exp` does not occur at any
modelled call site and is treated as the falsy branch. -/
def verifyToken (input : TokenInput) (now : Nat) : VerifyResult :=
  match jwtDecode input with
  | none => .err "Invalid token format"
  | some decoded =>
    let expired : Bool :=
      match getClaim decoded "exp" with
      | some (.num e) => decide (e ≠ 0) && decide (e < now)
      | some _ => false
      | none => false
    if expired then
      .err "Token has expired"
    else
      .ok (jsOr (getClaim decoded "sub") (getClaim decoded "username"))
        (jsOr (getClaim decoded "username") (getClaim decoded "cognito:username"))
        (getClaim decoded "email")
        (jsOrEmptyArr (getClaim decoded "cognito:groups"))

/-- The argument object of `generateJWT`.  The login and MFA-challenge routes
always supply `userId`, `username` and `email`; `role` defaults to the string
`user` when absent; the routes additionally pass a `cognito:groups` property,
which `generateJWT` never reads. -/
structure UserData where
  userId : JValue
  username : JValue
  email : JValue
  role : Option JValue
  cognitoGroups : Option JValue
deriving DecidableEq, Repr

/-- `cognitoService.generateJWT(userData)` (part_007 lines 323-337) at
wall-clock second `nowSec`, signing with the process key (`JWT_SECRET` or the
fallback string).  The payload is exactly `userId`, `username`, `email`,
`role`, `iat` and `exp = iat + 24*60*60`; the destructuring drops every other
property of `userData`. -/
def generateJWT (u : UserData) (nowSec : Nat) (key : String) : JwtToken :=
  jwtSign
    [("userId", u.userId), ("username", u.username), ("email", u.email),
     ("role", u.role.getD (.str "user")),
     ("iat", .num nowSec), ("exp", .num (nowSec + 86400))]
    key

/-- Decision of the `authorizeGroup` middleware. -/
inductive GroupGateResult where
  | denied
  | allowed
deriving DecidableEq, Repr

/-- `authorizeGroup(requiredGroup)` (part_000 lines 68-76) applied to the
verified `req.user` payload: reads `req.user["cognito:groups"] || []` and
denies with 403 unless it includes the required group. -/
def authorizeGroup (requiredGroup : String) (user : Payload) : GroupGateResult :=
  if jincludes (jsOrEmptyArr (getClaim user "cognito:groups")) requiredGroup then
    .allowed
  else
    .denied

/-- `Map.get` on a JS `Map` keyed by strings. -/
def alGet {α : Type} (l : List (String × α)) (k : String) : Option α :=
  (l.find? (fun kv => kv.1 == k)).map Prod.snd

/-- `Map.set` on a JS `Map` keyed by strings: replaces the binding of `k`
when present, otherwise appends it. -/
def alSet {α : Type} (l : List (String × α)) (k : String) (v : α) :
    List (String × α) :=
  match l with
  | [] => [(k, v)]
  | kv :: rest => if kv.1 == k then (k, v) :: rest else kv :: alSet rest k v

/-- The local group-membership map of `services/cognitoGroups.js`
(part_006): username to list of group names. -/
abbrev GroupStore := List (String × List String)

/-- `getUserGroups(username)` (part_006 lines 33-35):
`userGroupMembership.get(username) || []`. -/
def getUserGroups (store : GroupStore) (username : String) : List String :=
  (alGet store username).getD []

/-- `addUserToGroup(username, groupName)` (part_006 lines 42-48): pushes the
group only when it is not already held. -/
def addUserToGroup (store : GroupStore) (username groupName : String) :
    GroupStore :=
  if groupName ∈ getUserGroups store username then store
  else alSet store username (getUserGroups store username ++ [groupName])

/-- `removeUserFromGroup(username, groupName)` (part_006 lines 55-59): stores
the list filtered of the group. -/
def removeUserFromGroup (store : GroupStore) (username groupName : String) :
    GroupStore :=
  alSet store username
    ((getUserGroups store username).filter (fun g => g ≠ groupName))

/-- Outcome of the `requireGroup` middleware: 401 when the request has no
(truthy) username, 403 carrying the caller's actual groups, or pass-through
with `req.user.groups` set. -/
inductive GuardResult where
  | unauthenticated
  | insufficient (required userGroups : List String)
  | allowed (userGroups : List String)
deriving DecidableEq, Repr

/-- `requireGroup(allowedGroups)` (part_006 lines 66-105), after the
string-or-array argument has been normalised to `groupsArray`.  The caller's
current groups are resolved through the membership store, not the token;
`groupsArray.some(...)` is the short-circuit OR over the required groups. -/
def requireGroup (groupsArray : List String) (store : GroupStore)
    (username : Option String) : GuardResult :=
  match username with
  | none => .unauthenticated
  | some u =>
    if u = "" then .unauthenticated
    else if groupsArray.any (fun group => (getUserGroups store u).contains group) then
      .allowed (getUserGroups store u)
    else
      .insufficient groupsArray (getUserGroups store u)

/-- Per-principal MFA state held by the Cognito directory: whether the
software-token factor is enabled and preferred, and the secret of an
already-enrolled factor (for the re-verification path). -/
structure MfaState where
  mfaEnabled : Bool
  preferredMfa : Bool
  enrolledSecret : Option String
deriving DecidableEq, Repr

/-- Outcome of `cognitoService.verifyMFA`: the setup path reports
`status: enabled`, the re-verification path `status: verified`, a
`CodeMismatchException` is reported as the `Invalid MFA code` error, anything
else as a generic error. -/
inductive MfaVerifyOutcome where
  | enabled
  | verified
  | invalidCode
  | failed (msg : String)
deriving DecidableEq, Repr

/-- Modelled from the spec: the external directory's
`verifySoftwareToken(principal, code) -> success | CodeMismatch` contract
(spec section 6.2).  `totp` is the provider's expected one-time code for a
secret at the current instant; the check succeeds exactly when the submitted
code matches it. -/
def providerVerifySoftwareToken (totp : String → String) (secret code : String) :
    Bool :=
  code == totp secret

/-- `cognitoService.verifyMFA(username, code, secret)`
(services/cognito-service.js lines 90-147) as a state transformer on the
principal's MFA state.  With a setup `secret` it sends the verify command
first and only on its success sends `AdminSetUserMFAPreference` with
`Enabled` and `PreferredMfa` true; a `CodeMismatchException` is caught and
reported without any state change.  Without a secret it verifies against the
already-enrolled factor and never touches the preference. -/
def verifyMFA (totp : String → String) (st : MfaState) (code : String)
    (secret : Option String) : MfaVerifyOutcome × MfaState :=
  match secret with
  | some s =>
    if providerVerifySoftwareToken totp s code then
      (.enabled, { mfaEnabled := true, preferredMfa := true,
                   enrolledSecret := some s })
    else
      (.invalidCode, st)
  | none =>
    match st.enrolledSecret with
    | some s =>
      if providerVerifySoftwareToken totp s code then (.verified, st)
      else (.invalidCode, st)
    | none => (.failed "no software token", st)

/-- The Cognito directory's group relation (username to group names), the
authoritative store behind `cognitoService`'s group operations. -/
abbrev CognitoDir := List (String × List String)

/-- The directory's current groups of a user (the full relation, used to
state postconditions). -/
def cognitoGetGroups (dir : CognitoDir) (username : String) : List String :=
  (alGet dir username).getD []

/-- `cognitoService.listGroupsForUser(username)`
(services/cognito-service.js lines 303-331): `AdminListGroupsForUserCommand`
with `Limit: 10`, so at most the first ten groups are returned. -/
def listGroupsForUser (dir : CognitoDir) (username : String) : List String :=
  (cognitoGetGroups dir username).take 10

/-- `cognitoService.addUserToGroup(username, groupName)`
(services/cognito-service.js lines 242-265): `AdminAddUserToGroupCommand`,
idempotent at the provider. -/
def cognitoAddUserToGroup (dir : CognitoDir) (username groupName : String) :
    CognitoDir :=
  if groupName ∈ cognitoGetGroups dir username then dir
  else alSet dir username (cognitoGetGroups dir username ++ [groupName])

/-- `cognitoService.removeUserFromGroup(username, groupName)`
(services/cognito-service.js lines 273-296): `AdminRemoveUserFromGroupCommand`. -/
def cognitoRemoveUserFromGroup (dir : CognitoDir) (username groupName : String) :
    CognitoDir :=
  alSet dir username
    ((cognitoGetGroups dir username).filter (fun g => g ≠ groupName))

/-- `cognitoService.updateUserRole(username, newRole, status)`
(services/cognito-service.js lines 340-395), restricted to its effect on the
group relation: it lists the user's groups (`Limit: 10`), removes the user
from each group of that listing (ignoring the per-removal results), then adds
the user to the `newRole` group.  The status enable/disable commands and the
`custom:role` attribute update do not touch the group relation. -/
def updateUserRole (dir : CognitoDir) (username newRole : String) : CognitoDir :=
  cognitoAddUserToGroup
    ((listGroupsForUser dir username).foldl
      (fun d g => cognitoRemoveUserFromGroup d username g) dir)
    username newRole

/-- Response of the directory to `AdminInitiateAuthCommand` as observed by
`authenticateUser`: a completed authentication, a challenge, or one of the
exception names the service distinguishes. -/
inductive InitiateAuthOutcome where
  | authResult (accessToken idToken refreshToken : String) (expiresIn : Nat)
  | challenge (name session : String)
  | notAuthorized
  | userNotConfirmed
  | userNotFound
  | otherError (msg : String)
  | empty
deriving DecidableEq, Repr

/-- Modelled from the spec: the external Credential Directory Adapter's
`verifyPassword(username, password) -> success | challenge | InvalidCredentials`
contract (spec section 6.2), refined by the AWS behaviour the service's catch
branches are written against: an unknown username raises
`UserNotFoundException` and a wrong password for an existing user raises
`NotAuthorizedException`.  `dir` maps usernames to passwords, `mfaUsers`
lists the principals with the software-token factor enabled, and `sess` is
the opaque provider-issued challenge session. -/
def directoryInitiateAuth (dir : List (String × String)) (mfaUsers : List String)
    (sess username password : String) : InitiateAuthOutcome :=
  match alGet dir username with
  | none => .userNotFound
  | some pw =>
    if pw = password then
      if username ∈ mfaUsers then .challenge "SOFTWARE_TOKEN_MFA" sess
      else .authResult "access" "id" "refresh" 3600
    else .notAuthorized

/-- The object returned by a non-throwing `authenticateUser` call: the
success shape `{success:true, tokens, user:{username, authenticatedAt}}`
(whose user object has no email and no groups property), or the challenge
shape `{success:false, challenge, session, parameters}` (note the property
names: `challenge` and lowercase `session`). -/
inductive AuthUserReturn where
  | okUser (username : String)
  | challengeResp (challenge : String) (session : Option String)
deriving DecidableEq, Repr

/-- `cognitoService.authenticateUser(username, password)` (part_007 lines
106-163) over the directory's response: challenges are returned under the
`challenge` and `session` property names, `NotAuthorizedException`,
`UserNotConfirmedException` and `UserNotFoundException` are rethrown with the
three distinct messages of the catch block, and every other failure is
rethrown with the generic prefix. -/
def authenticateUser (username password : String)
    (outcome : InitiateAuthOutcome) : Except String AuthUserReturn :=
  match outcome with
  | .authResult _ _ _ _ => .ok (.okUser username)
  | .challenge name session => .ok (.challengeResp name (some session))
  | .notAuthorized => .error "Invalid username or password"
  | .userNotConfirmed => .error "User account not confirmed"
  | .userNotFound => .error "User not found"
  | .otherError msg => .error ("Authentication failed: " ++ msg)
  | .empty => .error ("Authentication failed: " ++ "Authentication failed - no result")

/-- HTTP response of the `POST /api/auth/login` route. -/
inductive LoginResponse where
  | ok (token : JwtToken)
  | mfaRequired (challenge : Option String) (session : Option String)
  | unauthorized (msg : String)
  | badRequest (msg : String)
  | serverError (msg : String)
deriving DecidableEq, Repr

/-- The login route of part_000 (lines 126-157).  On success it signs a JWT
from the authenticated user object (whose `email` and `groups` properties are
absent, so `result.user.email || ""` and `result.user.groups || []` are
used).  The challenge test reads `result.challengeName`, a property
`authenticateUser` never sets (it sets `challenge`), and the challenge
response would read `result.Session` (capital S), likewise never set; both
reads are the absent-property value.  A thrown error is answered by the
catch with a 500 carrying the message. -/
def loginRoute (username password : String) (outcome : InitiateAuthOutcome)
    (nowSec : Nat) (key : String) : LoginResponse :=
  if username = "" ∨ password = "" then
    .badRequest "Username and password are required"
  else
    match authenticateUser username password outcome with
    | .error msg => .serverError msg
    | .ok (.okUser uname) =>
      .ok (generateJWT
        ⟨.str uname, .str uname, .str "", some (.str "user"), some (.arr [])⟩
        nowSec key)
    | .ok (.challengeResp _ _) =>
      let challengeNameRead : Option String := none
      if challengeNameRead == some "SMS_MFA"
          || challengeNameRead == some "SOFTWARE_TOKEN_MFA" then
        .mfaRequired challengeNameRead none
      else
        .unauthorized "Authentication failed"

/-- Outcome of the `authenticateToken` middleware (app-cloud.js lines 70-88,
part_000 lines 55-65). -/
inductive AuthMidResult where
  | missingToken
  | invalidToken
  | usernameMissing
  | authed (user : Payload)
deriving DecidableEq, Repr

/-- `jwt.verify(token, key)` at wall-clock second `now`, modelled from the
jsonwebtoken library contract: it fails on malformed input, on a signature
not produced with `key` over the token's payload, and on an expired token
(the library rejects once `now` reaches `exp`); otherwise it returns the
payload. -/
def jwtVerify (input : TokenInput) (key : String) (now : Nat) : Option Payload :=
  match input with
  | .malformed => none
  | .token t =>
    if jwtSigOk t key then
      match getClaim t.payload "exp" with
      | some (.num e) => if e ≤ now then none else some t.payload
      | _ => some t.payload
    else none

/-- The `authenticateToken` middleware: 401 without a bearer token, 403 when
`jwt.verify` fails, 401 when the verified payload has no truthy `username`,
otherwise the request proceeds with `req.user` set to the payload. -/
def authenticateToken (header : Option TokenInput) (key : String) (now : Nat) :
    AuthMidResult :=
  match header with
  | none => .missingToken
  | some input =>
    match jwtVerify input key now with
    | none => .invalidToken
    | some user =>
      match getClaim user "username" with
      | some v => if v.truthy then .authed user else .usernameMissing
      | none => .usernameMissing

/-! ## Helper lemmas on the JS `Map` embedding and the stores -/

theorem alGet_alSet_self {α : Type} (l : List (String × α)) (k : String) (v : α) :
    alGet (alSet l k v) k = some v := by
  induction l with
  | nil => simp [alSet, alGet, List.find?]
  | cons kv rest ih =>
    by_cases h : kv.1 = k
    · simp [alSet, alGet, List.find?, h]
    · simp only [alSet, alGet, List.find?] at *
      simp [h, ih]

theorem alGet_alSet_ne {α : Type} (l : List (String × α)) (k k' : String) (v : α)
    (h : k' ≠ k) : alGet (alSet l k v) k' = alGet l k' := by
  have hkk : (k == k') = false := beq_eq_false_iff_ne.mpr (Ne.symm h)
  induction l with
  | nil => simp [alSet, alGet, List.find?, hkk]
  | cons kv rest ih =>
    by_cases hk : kv.1 = k
    · simp [alSet, alGet, List.find?, hk, hkk]
    · have h1 : (kv.1 == k) = false := beq_eq_false_iff_ne.mpr hk
      by_cases hk' : kv.1 = k'
      · have h2 : (kv.1 == k') = true := beq_iff_eq.mpr hk'
        simp [alSet, alGet, List.find?, h1, h2]
      · have h2 : (kv.1 == k') = false := beq_eq_false_iff_ne.mpr hk'
        simpa [alSet, alGet, List.find?, h1, h2] using ih

theorem getUserGroups_alSet_self (store : GroupStore) (u : String)
    (gs : List String) : getUserGroups (alSet store u gs) u = gs := by
  simp [getUserGroups, alGet_alSet_self]

theorem getUserGroups_alSet_ne (store : GroupStore) (u v : String)
    (gs : List String) (h : v ≠ u) :
    getUserGroups (alSet store u gs) v = getUserGroups store v := by
  simp [getUserGroups, alGet_alSet_ne _ _ _ _ h]

theorem addUserToGroup_of_mem (store : GroupStore) (u g : String)
    (h : g ∈ getUserGroups store u) : addUserToGroup store u g = store := by
  simp [addUserToGroup, h]

theorem addUserToGroup_of_not_mem (store : GroupStore) (u g : String)
    (h : g ∉ getUserGroups store u) :
    addUserToGroup store u g = alSet store u (getUserGroups store u ++ [g]) := by
  simp [addUserToGroup, h]

theorem cognitoGetGroups_alSet_self (dir : CognitoDir) (u : String)
    (gs : List String) : cognitoGetGroups (alSet dir u gs) u = gs := by
  simp [cognitoGetGroups, alGet_alSet_self]

theorem cognitoGetGroups_foldl_remove (L : List String) (dir : CognitoDir)
    (u : String) :
    cognitoGetGroups
        (L.foldl (fun d g => cognitoRemoveUserFromGroup d u g) dir) u
      = L.foldl (fun l g => l.filter (fun x => x ≠ g)) (cognitoGetGroups dir u) := by
  induction L generalizing dir with
  | nil => rfl
  | cons g L ih =>
    simp only [List.foldl_cons]
    rw [ih]
    rw [cognitoRemoveUserFromGroup, cognitoGetGroups_alSet_self]

theorem foldl_filter_all (L : List String) :
    ∀ init : List String, (∀ x ∈ init, x ∈ L) →
      L.foldl (fun l g => l.filter (fun x => x ≠ g)) init = [] := by
  induction L with
  | nil =>
    intro init h
    cases init with
    | nil => rfl
    | cons a rest => exact absurd (h a (by simp)) (List.not_mem_nil a)
  | cons g L ih =>
    intro init h
    simp only [List.foldl_cons]
    apply ih
    intro x hx
    have hmem := List.mem_of_mem_filter hx
    have hne : x ≠ g := by
      have := List.of_mem_filter hx
      simpa using this
    have := h x hmem
    simp at this
    rcases this with h1 | h2
    · exact absurd h1 hne
    · exact h2

/-! ## Claim theorems -/

/-- C1 counterexample: `verify(issue(subject, groups, ttl))` does NOT return
the group set unchanged.  At the concrete input subject `admin`, groups
`Admin` (passed as the `cognito:groups` property, exactly as the login route
does), verification succeeds but returns the empty group set, not `Admin`:
`generateJWT` drops the groups at issuance. -/
theorem roundTrip_drops_groups_ce :
    verifyToken
        (.token (generateJWT
          ⟨.str "admin", .str "admin", .str "a", none, some (.arr ["Admin"])⟩
          0 "your-secret-key")) 0
      = .ok (some (.str "admin")) (some (.str "admin")) (some (.str "a")) (.arr [])
    ∧ JValue.arr [] ≠ JValue.arr ["Admin"] := by
  decide

/-- C1 (amended): for every subject with a truthy username, the verify of an
issued token succeeds within the 24h TTL and returns the subject unchanged,
but the returned group set is always empty, whatever groups were supplied at
issuance; so groups survive the round trip only when the supplied set is
empty. -/
theorem roundTrip_subject_empty_groups (u : UserData) (iat now : Nat)
    (key : String) (hnow : now ≤ iat + 86400)
    (hname : u.username.truthy = true) :
    verifyToken (.token (generateJWT u iat key)) now
      = .ok (some u.username) (some u.username) (some u.email) (.arr []) := by
  have hexp : getClaim (generateJWT u iat key).payload "exp"
      = some (.num (iat + 86400)) := rfl
  have hsub : getClaim (generateJWT u iat key).payload "sub" = none := rfl
  have huser : getClaim (generateJWT u iat key).payload "username"
      = some u.username := rfl
  have hemail : getClaim (generateJWT u iat key).payload "email"
      = some u.email := rfl
  have hg : getClaim (generateJWT u iat key).payload "cognito:groups" = none := rfl
  simp only [verifyToken, jwtDecode, hexp, hsub, huser, hemail, hg]
  have hne : (iat + 86400 ≠ 0) := by omega
  have hlt : ¬ (iat + 86400 < now) := by omega
  simp [hne, hlt, jsOr, jsOrEmptyArr, hname]

/-- Witness for C1's amended theorem at a concrete subject. -/
theorem roundTrip_subject_empty_groups_w :
    verifyToken
        (.token (generateJWT ⟨.str "bob", .str "bob", .str "e", none, none⟩ 5 "k"))
        5
      = .ok (some (.str "bob")) (some (.str "bob")) (some (.str "e")) (.arr []) :=
  roundTrip_subject_empty_groups
    ⟨.str "bob", .str "bob", .str "e", none, none⟩ 5 5 "k" (by decide) (by decide)

/-- C2: the `verifyToken` operation does NOT perform the `SignatureInvalid`
or `SubjectMissing` checks the claim describes.  A token whose payload was
altered after signing (its signature no longer matches) is accepted with the
forged claims, and a token signed with a different key and lacking any
subject claim is also accepted, instead of being rejected. -/
theorem verifyToken_accepts_forged_and_subjectless :
    (jwtSigOk
        ⟨[("username", .str "admin"), ("exp", .num 9999999999)],
          "your-secret-key",
          [("username", .str "user"), ("exp", .num 9999999999)]⟩
        "your-secret-key" = false)
    ∧ verifyToken
        (.token ⟨[("username", .str "admin"), ("exp", .num 9999999999)],
          "your-secret-key",
          [("username", .str "user"), ("exp", .num 9999999999)]⟩) 1000
      = .ok (some (.str "admin")) (some (.str "admin")) none (.arr [])
    ∧ verifyToken
        (.token ⟨[("exp", .num 9999999999)], "attacker-key",
          [("exp", .num 9999999999)]⟩) 1000
      = .ok none none none (.arr []) := by
  refine ⟨by decide, by decide, by decide⟩

/-- The `authenticateToken` middleware, by contrast, does reject the token
whose payload was altered after signing (its `jwt.verify` checks the
signature). -/
theorem authenticateToken_rejects_forged :
    authenticateToken
        (some (.token ⟨[("username", .str "admin"), ("exp", .num 9999999999)],
          "your-secret-key",
          [("username", .str "user"), ("exp", .num 9999999999)]⟩))
        "your-secret-key" 1000
      = .invalidToken := by
  decide

/-- C3: for an authenticated caller (truthy username) and a non-empty
required-group list, `requireGroup` allows exactly when some required group
is in the caller's store-resolved group set; otherwise it denies with the
caller's actual groups in the response; a caller with an empty group set is
always denied. -/
theorem requireGroup_allows_iff_membership (store : GroupStore) (u : String)
    (gs : List String) (hu : u ≠ "") (hne : gs ≠ []) :
    (requireGroup gs store (some u) = .allowed (getUserGroups store u)
      ↔ ∃ g ∈ gs, g ∈ getUserGroups store u)
    ∧ ((¬ ∃ g ∈ gs, g ∈ getUserGroups store u) →
        requireGroup gs store (some u) = .insufficient gs (getUserGroups store u))
    ∧ (getUserGroups store u = [] →
        requireGroup gs store (some u)
          = .insufficient gs (getUserGroups store u)) := by
  have hany : (gs.any (fun group => (getUserGroups store u).contains group) = true)
      ↔ ∃ g ∈ gs, g ∈ getUserGroups store u := by
    simp [List.any_eq_true]
  cases hb : gs.any (fun group => (getUserGroups store u).contains group) with
  | true =>
    have hex : ∃ g ∈ gs, g ∈ getUserGroups store u := hany.mp hb
    have hres : requireGroup gs store (some u)
        = .allowed (getUserGroups store u) := by
      simp only [requireGroup]
      rw [if_neg hu, hb]
      simp
    refine ⟨⟨fun _ => hex, fun _ => hres⟩, fun hno => absurd hex hno,
      fun hempty => ?_⟩
    obtain ⟨g, _, hmem⟩ := hex
    rw [hempty] at hmem
    exact absurd hmem (List.not_mem_nil g)
  | false =>
    have hres : requireGroup gs store (some u)
        = .insufficient gs (getUserGroups store u) := by
      simp only [requireGroup]
      rw [if_neg hu, hb]
      simp
    have hnoex : ¬ ∃ g ∈ gs, g ∈ getUserGroups store u := by
      intro hex
      rw [← hany] at hex
      rw [hb] at hex
      exact Bool.false_ne_true hex
    refine ⟨⟨fun h => ?_, fun hex => absurd hex hnoex⟩, fun _ => hres,
      fun _ => hres⟩
    rw [hres] at h
    exact absurd h (by simp)

/-- Witness for C3: an Admin check allows a caller holding Admin and denies a
caller holding only User, reporting that caller's actual groups. -/
theorem requireGroup_allows_iff_membership_w :
    requireGroup ["Admin"] [("admin", ["Admin"])] (some "admin")
      = .allowed (getUserGroups [("admin", ["Admin"])] "admin")
    ∧ requireGroup ["Admin"] [("user", ["User"])] (some "user")
      = .insufficient ["Admin"] (getUserGroups [("user", ["User"])] "user") :=
  ⟨(requireGroup_allows_iff_membership [("admin", ["Admin"])] "admin" ["Admin"]
      (by decide) (by decide)).1.mpr (by decide),
    (requireGroup_allows_iff_membership [("user", ["User"])] "user" ["Admin"]
      (by decide) (by decide)).2.1 (by decide)⟩

/-- C4 counterexample: the two directory-rejected `authenticateUser` runs are
distinguishable.  With directory `alice`/`pw1`, an unknown username and a
wrong password for an existing user produce different caller-visible
errors. -/
theorem invalidCredentials_distinguishable_ce :
    authenticateUser "bob" "x"
        (directoryInitiateAuth [("alice", "pw1")] [] "s" "bob" "x")
      = .error "User not found"
    ∧ authenticateUser "alice" "wrong"
        (directoryInitiateAuth [("alice", "pw1")] [] "s" "alice" "wrong")
      = .error "Invalid username or password"
    ∧ ("User not found" : String) ≠ "Invalid username or password" :=
  ⟨rfl, rfl, by decide⟩

/-- C4 (amended): both rejected logins fail with no token and no challenge,
but with distinguishable errors that reveal whether the username exists:
an unknown username yields the `User not found` message and a wrong password
for an existing user yields the `Invalid username or password` message. -/
theorem rejectedLogin_distinct_messages (dir : List (String × String))
    (mfaUsers : List String) (sess u1 p1 u2 p2 pw : String)
    (h1 : alGet dir u1 = none) (h2 : alGet dir u2 = some pw) (h3 : pw ≠ p2) :
    authenticateUser u1 p1 (directoryInitiateAuth dir mfaUsers sess u1 p1)
      = .error "User not found"
    ∧ authenticateUser u2 p2 (directoryInitiateAuth dir mfaUsers sess u2 p2)
      = .error "Invalid username or password" := by
  constructor
  · simp [directoryInitiateAuth, h1, authenticateUser]
  · simp [directoryInitiateAuth, h2, h3, authenticateUser]

/-- Witness for C4's amended theorem at a concrete directory. -/
theorem rejectedLogin_distinct_messages_w :
    authenticateUser "carol" "x"
        (directoryInitiateAuth [("alice", "pw1")] [] "s" "carol" "x")
      = .error "User not found"
    ∧ authenticateUser "alice" "bad"
        (directoryInitiateAuth [("alice", "pw1")] [] "s" "alice" "bad")
      = .error "Invalid username or password" :=
  rejectedLogin_distinct_messages [("alice", "pw1")] [] "s" "carol" "x"
    "alice" "bad" "pw1" (by decide) (by decide) (by decide)

/-- C5: for every argument object and signing time, the claims of the token
`generateJWT` signs are exactly `userId`, `username`, `email`, `role`, `iat`
and `exp` — in particular any supplied groups property is dropped — and
consequently `authorizeGroup` denies every required group on the payload of
such a token. -/
theorem generateJWT_claim_keys_and_deny (u : UserData) (nowSec : Nat)
    (key : String) (G : String) :
    (generateJWT u nowSec key).payload.map Prod.fst
      = ["userId", "username", "email", "role", "iat", "exp"]
    ∧ authorizeGroup G (generateJWT u nowSec key).payload = .denied := by
  exact ⟨rfl, rfl⟩

/-- C6: for every issued token, `verifyToken` fails with the expiry error
exactly when the verification instant is strictly after `iat + 24h`, and a
token presented exactly at its expiry instant is still accepted. -/
theorem verifyToken_expiry_boundary (u : UserData) (iat : Nat) (key : String)
    (now : Nat) :
    (verifyToken (.token (generateJWT u iat key)) now = .err "Token has expired"
      ↔ iat + 86400 < now)
    ∧ (verifyToken (.token (generateJWT u iat key)) (iat + 86400)).isOk
      = true := by
  have hexp : getClaim (generateJWT u iat key).payload "exp"
      = some (.num (iat + 86400)) := rfl
  constructor
  · simp only [verifyToken, jwtDecode, hexp]
    have hne : (iat + 86400 ≠ 0) := by omega
    by_cases hlt : iat + 86400 < now
    · simp [hne, hlt]
    · simp [hne, hlt]
  · simp only [verifyToken, jwtDecode, hexp]
    have hlt : ¬ (iat + 86400 < iat + 86400) := by omega
    simp [hlt, VerifyResult.isOk]

/-- Witness for C6: one second past the TTL is rejected as expired, the
expiry instant itself is accepted. -/
theorem verifyToken_expiry_boundary_w :
    verifyToken
        (.token (generateJWT ⟨.str "admin", .str "admin", .str "e", none, none⟩
          0 "k")) 86401
      = .err "Token has expired"
    ∧ (verifyToken
        (.token (generateJWT ⟨.str "admin", .str "admin", .str "e", none, none⟩
          0 "k")) 86400).isOk = true :=
  ⟨(verifyToken_expiry_boundary
      ⟨.str "admin", .str "admin", .str "e", none, none⟩ 0 "k" 86401).1.mpr
      (by decide),
    (verifyToken_expiry_boundary
      ⟨.str "admin", .str "admin", .str "e", none, none⟩ 0 "k" 86400).2⟩

/-- C7: at the failing input — a user whose password the directory accepts
and who has the software-token factor enabled — the part_000 login route
answers 401 `Authentication failed` instead of the challenge response: the
route tests `result.challengeName`, a property `authenticateUser` never sets
(it returns the challenge under `challenge`), so the `mfaRequired` branch is
unreachable. -/
theorem mfa_challenge_login_answers_401 :
    loginRoute "alice" "pw1"
        (directoryInitiateAuth [("alice", "pw1")] ["alice"] "sess-1"
          "alice" "pw1")
        0 "your-secret-key"
      = .unauthorized "Authentication failed" := by
  decide

/-- C8: `verifyMFA` invoked with a setup secret on a mismatching code fails
with the `Invalid MFA code` error and leaves the principal's MFA state
completely unchanged: the preference-enabling command is issued only after
the provider verifies the code, so on mismatch MFA stays disabled. -/
theorem verifyMFA_mismatch_preserves_state (totp : String → String)
    (st : MfaState) (code secret : String) (hpend : st.mfaEnabled = false)
    (hmm : code ≠ totp secret) :
    verifyMFA totp st code (some secret) = (.invalidCode, st)
    ∧ (verifyMFA totp st code (some secret)).2.mfaEnabled = false := by
  have hb : providerVerifySoftwareToken totp secret code = false := by
    simp [providerVerifySoftwareToken, hmm]
  constructor
  · simp [verifyMFA, hb]
  · simp [verifyMFA, hb, hpend]

/-- Witness for C8 at a concrete pending principal and mismatching code. -/
theorem verifyMFA_mismatch_preserves_state_w :
    verifyMFA (fun _ => "123456") ⟨false, false, none⟩ "000000" (some "SECRET")
      = (.invalidCode, ⟨false, false, none⟩) :=
  (verifyMFA_mismatch_preserves_state (fun _ => "123456") ⟨false, false, none⟩
    "000000" "SECRET" rfl (by decide)).1

/-- C9: `addUserToGroup` applied twice equals applying it once; after the
double add the membership list counts the group exactly once (from any state
without a duplicate of it); and `removeUserFromGroup` of a group not held
changes no principal's membership set. -/
theorem groupStore_add_remove_idempotent (store : GroupStore) (u g : String) :
    addUserToGroup (addUserToGroup store u g) u g = addUserToGroup store u g
    ∧ (List.count g (getUserGroups store u) ≤ 1 →
        List.count g
          (getUserGroups (addUserToGroup (addUserToGroup store u g) u g) u) = 1)
    ∧ (g ∉ getUserGroups store u →
        ∀ v, getUserGroups (removeUserFromGroup store u g) v
          = getUserGroups store v) := by
  have hidem : addUserToGroup (addUserToGroup store u g) u g
      = addUserToGroup store u g := by
    by_cases hg : g ∈ getUserGroups store u
    · rw [addUserToGroup_of_mem store u g hg, addUserToGroup_of_mem store u g hg]
    · have h1 := addUserToGroup_of_not_mem store u g hg
      have h2 : g ∈ getUserGroups (addUserToGroup store u g) u := by
        rw [h1, getUserGroups_alSet_self]
        simp
      rw [addUserToGroup_of_mem _ u g h2]
  refine ⟨hidem, ?_, ?_⟩
  · intro hcount
    rw [hidem]
    by_cases hg : g ∈ getUserGroups store u
    · rw [addUserToGroup_of_mem store u g hg]
      have := List.count_pos_iff.mpr hg
      omega
    · rw [addUserToGroup_of_not_mem store u g hg, getUserGroups_alSet_self]
      have h0 : List.count g (getUserGroups store u) = 0 :=
        List.count_eq_zero.mpr hg
      simp [List.count_append, h0]
  · intro hg v
    have hfilter : (getUserGroups store u).filter (fun x => x ≠ g)
        = getUserGroups store u := by
      apply List.filter_eq_self.mpr
      intro a ha
      have : a ≠ g := fun hEq => hg (hEq ▸ ha)
      simpa using this
    by_cases hv : v = u
    · subst hv
      rw [removeUserFromGroup, hfilter, getUserGroups_alSet_self]
    · rw [removeUserFromGroup, getUserGroups_alSet_ne _ _ _ _ hv]

/-- Witness for C9: double-adding `User` to a fresh principal leaves exactly
one `User` entry, and removing a group not held changes nothing. -/
theorem groupStore_add_remove_idempotent_w :
    List.count "User"
        (getUserGroups
          (addUserToGroup (addUserToGroup [] "p" "User") "p" "User") "p") = 1
    ∧ getUserGroups (removeUserFromGroup [] "p" "User") "p"
      = getUserGroups ([] : GroupStore) "p" :=
  ⟨(groupStore_add_remove_idempotent [] "p" "User").2.1 (by decide),
    (groupStore_add_remove_idempotent [] "p" "User").2.2 (by decide) "p"⟩

/-- C10 counterexample: a successful `updateUserRole` does not always leave
the singleton of the new role.  A user in eleven groups keeps the eleventh:
`listGroupsForUser` passes `Limit: 10`, so only the first ten groups are
removed before the new role is added. -/
theorem updateUserRole_eleven_groups_ce :
    cognitoGetGroups
        (updateUserRole
          [("u", ["a", "b", "c", "d", "e", "f", "g", "h", "i", "j", "k"])]
          "u" "Admin") "u"
      = ["k", "Admin"]
    ∧ (["k", "Admin"] : List String) ≠ ["Admin"] := by
  refine ⟨by decide, by decide⟩

/-- C10 (amended): whenever the principal belongs to at most ten groups (so
the `Limit: 10` listing is complete), `updateUserRole` leaves the directory
memberships exactly the singleton of the new role: it removes the user from
every listed group and only then adds the new role group. -/
theorem updateUserRole_singleton_of_le_ten (dir : CognitoDir) (u r : String)
    (hlen : (cognitoGetGroups dir u).length ≤ 10) :
    cognitoGetGroups (updateUserRole dir u r) u = [r] := by
  have htake : listGroupsForUser dir u = cognitoGetGroups dir u := by
    simp [listGroupsForUser, List.take_of_length_le hlen]
  have hremoved : cognitoGetGroups
      ((listGroupsForUser dir u).foldl
        (fun d g => cognitoRemoveUserFromGroup d u g) dir) u = [] := by
    rw [cognitoGetGroups_foldl_remove, htake]
    exact foldl_filter_all _ _ (fun x hx => hx)
  rw [updateUserRole, cognitoAddUserToGroup, hremoved]
  simp [cognitoGetGroups_alSet_self, hremoved]

/-- Witness for C10's amended theorem: one initial group, reassigned to
Admin, ends with exactly the Admin group. -/
theorem updateUserRole_singleton_of_le_ten_w :
    cognitoGetGroups (updateUserRole [("u", ["User"])] "u" "Admin") "u"
      = ["Admin"] :=
  updateUserRole_singleton_of_le_ten [("u", ["User"])] "u" "Admin" (by decide)

end MediaAuth
